import Mathlib

/-
Verification of the trace classification resolver
(`torch/_dynamo/trace_rules.py`): a shallow embedding of the rule-table
construction (`get_torch_obj_rule_map`, `load_object`, `_load_obj_from_str`),
the native-method set (`get_tensor_method`), the fallback heuristic
(`is_in_graph_function`) and the classifier entry point (`lookup`),
together with proofs of the specified properties.

Python values are modelled as `PyObj`: an identity (`oid`, the result of
`id(obj)`), an equality key (`eqKey`, the equivalence class of the object
under Python `__eq__`/`__hash__`; for objects with default equality it
coincides with `oid`), a hashability flag, a type kind (the `isinstance`
checks performed by the source), an optional `__qualname__` and an optional
`__wrapped__` back-reference.  External collaborators (the import system,
`getattr`, the allow/disallow override sets from `allowed_functions`, and
`torch.Tensor`'s attribute listing) are packaged in an `Env`.  Python dicts
and frozensets are modelled as association lists keyed by `eqKey`
(Python containers compare keys by `__hash__`/`__eq__`, not by identity),
with Python's insert-or-update-in-place semantics.  Exceptions are
modelled with `Except LoadErr`.
-/

namespace TraceRules

/-- The Dynamo variable classes a lookup can return
(`ConstantVariable`, `TorchCtxManagerClassVariable`,
`TorchInGraphFunctionVariable` in the source). -/
inductive TraceRule where
  | TorchCtxManagerClassVariable
  | TorchInGraphFunctionVariable
  | ConstantVariable
deriving DecidableEq

/-- The Python type kinds distinguished by the source's `isinstance` checks. -/
inductive PyKind where
  | functionType
  | methodType
  | builtinFunctionType
  | methodDescriptorType
  | wrapperDescriptorType
  | opOverloadPacket
  | opOverload
  | strType
  | other
deriving DecidableEq

/-- A Python object: identity, equality key, hashability, type kind,
optional `__qualname__`, optional `__wrapped__` back-reference. -/
inductive PyObj where
  | mk (oid : Nat) (eqKey : Nat) (hashable : Bool) (kind : PyKind)
      (qualname : Option String) (wrapped : Option PyObj)

def PyObj.oid : PyObj → Nat
  | .mk i _ _ _ _ _ => i

def PyObj.eqKey : PyObj → Nat
  | .mk _ e _ _ _ _ => e

def PyObj.hashable : PyObj → Bool
  | .mk _ _ h _ _ _ => h

def PyObj.kind : PyObj → PyKind
  | .mk _ _ _ k _ _ => k

def PyObj.qualname : PyObj → Option String
  | .mk _ _ _ _ q _ => q

def PyObj.wrapped : PyObj → Option PyObj
  | .mk _ _ _ _ _ w => w

/-- The exceptions that can arise during rule-table construction:
`AttributeError` and `ModuleNotFoundError` (caught by
`get_torch_obj_rule_map`), the `AssertionError` of `load_object`'s
separator-count assert, and the `ValueError` of unpacking
`fully_qualified_name.rsplit(".", maxsplit=1)` into two names. -/
inductive LoadErr where
  | attributeError
  | moduleNotFoundError
  | assertionError (msg : String)
  | valueError
deriving DecidableEq

/-- The external collaborators consumed by the source module:
`importlib.import_module` (`none` models `ModuleNotFoundError`), `getattr`
(`none` models `AttributeError`), `_disallowed_function_ids` (an identity
set, tested with `id(obj) in ...`), `is_user_defined_allowed`, `is_allowed`
(both from `allowed_functions`), and `dir(torch.Tensor)` together with
attribute access on `torch.Tensor`. -/
structure Env where
  import_module : String → Option PyObj
  getattr : PyObj → String → Option PyObj
  disallowed_function_ids : Nat → Bool
  is_user_defined_allowed : PyObj → Bool
  is_allowed : PyObj → Bool
  tensor_dir : List String
  tensor_getattr : String → PyObj

/-- Python `str.split(sep)` for a one-character separator, on `List Char`. -/
def splitCharAux (sep : Char) : List Char → List Char → List (List Char)
  | [], acc => [acc.reverse]
  | c :: rest, acc =>
    if c = sep then acc.reverse :: splitCharAux sep rest []
    else splitCharAux sep rest (c :: acc)

/-- Python `s.split(sep)` for a one-character separator. -/
def pySplit (sep : Char) (s : String) : List String :=
  (splitCharAux sep s.data []).map (fun l => String.mk l)

/-- Join a list of path segments with `.` (inverse of splitting on `.`). -/
def joinDot : List String → String
  | [] => ""
  | [s] => s
  | s :: rest => s ++ "." ++ joinDot rest

/-- Python `s.rsplit(".", maxsplit=1)` unpacked into two names;
`none` models the `ValueError` raised when `s` contains no `.`. -/
def rsplitDot1 (s : String) : Option (String × String) :=
  match (pySplit '.' s).reverse with
  | [] => none
  | [_] => none
  | last :: revInit => some (joinDot revInit.reverse, last)

def isPrefixOfChars : List Char → List Char → Bool
  | [], _ => true
  | _ :: _, [] => false
  | a :: as, b :: bs => decide (a = b) && isPrefixOfChars as bs

/-- Python `s.startswith(pre)`. -/
def pyStartsWith (s pre : String) : Bool :=
  isPrefixOfChars pre.data s.data

/-- `_load_obj_from_str`: split off the rightmost dotted segment, import the
module part and fetch the attribute part. -/
def _load_obj_from_str (env : Env) (fully_qualified_name : String) : Except LoadErr PyObj :=
  match rsplitDot1 fully_qualified_name with
  | none => .error .valueError
  | some (module, obj_name) =>
    match env.import_module module with
    | none => .error .moduleNotFoundError
    | some m =>
      match env.getattr m obj_name with
      | none => .error .attributeError
      | some v => .ok v

/-- The trailing `__wrapped__` unwrap of `load_object`: a successfully
resolved value carrying `__wrapped__` is replaced by the original. -/
def unwrap_loaded : Except LoadErr PyObj → Except LoadErr PyObj
  | .error e => .error e
  | .ok val =>
    match val.wrapped with
    | some w => .ok w
    | none => .ok val

/-- `load_object`: split the name on `#`; two parts mean "member lookup on
the object named by the first part", one part is a plain dotted name, any
other count fails the assert.  A resolved value carrying `__wrapped__` is
unwrapped to the original. -/
def load_object (env : Env) (name : String) : Except LoadErr PyObj :=
  let x := pySplit '#' name
  unwrap_loaded (
    if x.length = 2 then
      match _load_obj_from_str env (x.headD "") with
      | .error e => .error e
      | .ok obj =>
        match env.getattr obj (x.getD 1 "") with
        | none => .error .attributeError
        | some v => .ok v
    else if x.length = 1 then
      _load_obj_from_str env (x.headD "")
    else
      .error (.assertionError ("Invalid obj name " ++ name)))

/-- The hand-curated entry list `manual_torch_name_rule_map`, in source order. -/
def manual_torch_name_rule_map : List (String × TraceRule) := [
  ("torch.profiler.profiler.profile", .TorchCtxManagerClassVariable),
  ("torch.autograd.profiler.profile", .TorchCtxManagerClassVariable),
  ("torch.autograd.profiler.record_function", .TorchCtxManagerClassVariable),
  ("torch.default_generator#get_state", .TorchInGraphFunctionVariable),
  ("torch._C.Generator#get_state", .TorchInGraphFunctionVariable),
  ("torch.default_generator#set_state", .TorchInGraphFunctionVariable),
  ("torch._C.Generator#set_state", .TorchInGraphFunctionVariable),
  ("torch.onnx.is_in_onnx_export", .TorchInGraphFunctionVariable),
  ("torch.onnx.operators.shape_as_tensor", .TorchInGraphFunctionVariable),
  ("torch.overrides.is_tensor_like", .TorchInGraphFunctionVariable),
  ("torch.jit.is_scripting", .TorchInGraphFunctionVariable),
  ("torch.jit.is_tracing", .TorchInGraphFunctionVariable),
  ("torch.jit.annotate", .TorchInGraphFunctionVariable),
  ("torch.distributed.is_available", .TorchInGraphFunctionVariable),
  ("torch.distributed.is_initialized", .TorchInGraphFunctionVariable),
  ("torch.distributed.get_rank", .TorchInGraphFunctionVariable),
  ("torch.distributed.get_world_size", .TorchInGraphFunctionVariable),
  ("torch.distributed._tensor.DTensor#from_local", .TorchInGraphFunctionVariable),
  ("torch._utils.is_compiling", .TorchInGraphFunctionVariable),
  ("torch.overrides.get_default_nowrap_functions", .TorchInGraphFunctionVariable),
  ("torch.fx._symbolic_trace.is_fx_tracing", .TorchInGraphFunctionVariable),
  ("torch._dynamo.external_utils.is_compiling", .TorchInGraphFunctionVariable),
  ("torch.autograd.graph.disable_saved_tensors_hooks", .TorchInGraphFunctionVariable)]

/-- The auto-derived entry list `auto_torch_name_rule_map`, in source order. -/
def auto_torch_name_rule_map : List (String × TraceRule) := [
  ("torch._C.DisableTorchFunctionSubclass", .TorchCtxManagerClassVariable),
  ("torch.amp.autocast_mode.autocast", .TorchCtxManagerClassVariable),
  ("torch.autograd.grad_mode.enable_grad", .TorchCtxManagerClassVariable),
  ("torch.autograd.grad_mode.inference_mode", .TorchCtxManagerClassVariable),
  ("torch.autograd.grad_mode.no_grad", .TorchCtxManagerClassVariable),
  ("torch.autograd.grad_mode.set_grad_enabled", .TorchCtxManagerClassVariable),
  ("torch.cpu.amp.autocast_mode.autocast", .TorchCtxManagerClassVariable),
  ("torch.cuda.amp.autocast_mode.autocast", .TorchCtxManagerClassVariable)]

/-- Python dict assignment `d[k] = v` for a string-keyed dict: if the key is
present its value is updated in place, otherwise the pair is appended. -/
def pyDictUpdate (d : List (String × TraceRule)) (k : String) (v : TraceRule) :
    List (String × TraceRule) :=
  if ∃ p ∈ d, p.1 = k then
    d.map (fun p => if p.1 = k then (p.1, v) else p)
  else
    d ++ [(k, v)]

/-- A Python dict literal built from a list of pairs by successive
assignment (later bindings for the same key overwrite earlier ones). -/
def pyDictOfPairs (l : List (String × TraceRule)) : List (String × TraceRule) :=
  l.foldl (fun d p => pyDictUpdate d p.1 p.2) []

/-- Python dict read `d.get(k)` for a string-keyed dict. -/
def pyDictGetStr : List (String × TraceRule) → String → Option TraceRule
  | [], _ => none
  | p :: rest, k => if p.1 = k then some p.2 else pyDictGetStr rest k

/-- The dict-unpacking merge of the two lists:
`torch_name_rule_map = {**manual_torch_name_rule_map, **auto_torch_name_rule_map}`. -/
def merged_name_rule_map (manual auto : List (String × TraceRule)) :
    List (String × TraceRule) :=
  pyDictOfPairs (manual ++ auto)

/-- `torch_name_rule_map`, the merged declarative rule table. -/
def torch_name_rule_map : List (String × TraceRule) :=
  merged_name_rule_map manual_torch_name_rule_map auto_torch_name_rule_map

/-- Python dict assignment `d[obj] = v` for an object-keyed dict; Python
compares keys by `__hash__`/`__eq__`, modelled by `eqKey`. -/
def pyDictInsertObj (d : List (PyObj × TraceRule)) (obj : PyObj) (v : TraceRule) :
    List (PyObj × TraceRule) :=
  if ∃ p ∈ d, p.1.eqKey = obj.eqKey then
    d.map (fun p => if p.1.eqKey = obj.eqKey then (p.1, v) else p)
  else
    d ++ [(obj, v)]

/-- Python dict read `d.get(obj, None)` for an object-keyed dict. -/
def pyDictGetObj : List (PyObj × TraceRule) → PyObj → Option TraceRule
  | [], _ => none
  | p :: rest, obj => if p.1.eqKey = obj.eqKey then some p.2 else pyDictGetObj rest obj

/-- The loop body of `get_torch_obj_rule_map`, generalised over the
declarative name map: resolve each entry with `load_object`, drop entries
raising `AttributeError` or `ModuleNotFoundError`, propagate any other
exception.  The second argument is the dict accumulated so far. -/
def get_torch_obj_rule_map_from (env : Env) :
    List (String × TraceRule) → List (PyObj × TraceRule) →
    Except LoadErr (List (PyObj × TraceRule))
  | [], d => .ok d
  | (k, v) :: rest, d =>
    match load_object env k with
    | .ok obj => get_torch_obj_rule_map_from env rest (pyDictInsertObj d obj v)
    | .error .attributeError => get_torch_obj_rule_map_from env rest d
    | .error .moduleNotFoundError => get_torch_obj_rule_map_from env rest d
    | .error e => .error e

/-- `get_torch_obj_rule_map`: the identity-view rule table built from
`torch_name_rule_map`. -/
def get_torch_obj_rule_map (env : Env) : Except LoadErr (List (PyObj × TraceRule)) :=
  get_torch_obj_rule_map_from env torch_name_rule_map []

/-- `get_tensor_method`: every attribute of `torch.Tensor` whose descriptor
kind is `MethodDescriptorType` or `WrapperDescriptorType`. -/
def get_tensor_method (env : Env) : List PyObj :=
  (env.tensor_dir.map env.tensor_getattr).filter
    (fun method => decide (method.kind = PyKind.methodDescriptorType) ||
      decide (method.kind = PyKind.wrapperDescriptorType))

/-- Python `obj in get_tensor_method()` (frozenset membership, i.e.
`__hash__`/`__eq__`-based, modelled by `eqKey`). -/
def in_tensor_method (env : Env) (obj : PyObj) : Bool :=
  (get_tensor_method env).any (fun m => decide (m.eqKey = obj.eqKey))

/-- `is_in_graph_function`: tensor methods and operator overloads are in
graph functions; function- and method-like callables are in graph functions
exactly when `is_allowed` accepts them; everything else is not. -/
def is_in_graph_function (env : Env) (obj : PyObj) : Bool :=
  if in_tensor_method env obj = true ∨ obj.kind = PyKind.opOverloadPacket ∨
      obj.kind = PyKind.opOverload then
    true
  else if obj.kind = PyKind.functionType ∨ obj.kind = PyKind.methodType ∨
      obj.kind = PyKind.builtinFunctionType ∨ obj.kind = PyKind.methodDescriptorType ∨
      obj.kind = PyKind.wrapperDescriptorType then
    env.is_allowed obj
  else
    false

/-- The guard of `lookup`'s unwrap step:
`hasattr(obj, "__qualname__") and str(obj.__qualname__).startswith("_VariableFunctionsClass")`. -/
def qualname_in_variable_functions (obj : PyObj) : Bool :=
  match obj.qualname with
  | some q => pyStartsWith q "_VariableFunctionsClass"
  | none => false

/-- The unwrap step of `lookup`: an object carrying `__wrapped__` is
replaced by the wrapped original unless the guard fires. -/
def unwrap_guarded (obj : PyObj) : PyObj :=
  match obj.wrapped with
  | some w => if qualname_in_variable_functions obj = true then obj else w
  | none => obj

/-- The tail of `lookup` (its last five lines): rule-table lookup followed
by the `is_in_graph_function` fallback. -/
def rule_lookup_and_fallback (env : Env) (obj : PyObj) :
    Except LoadErr (Option TraceRule) :=
  match get_torch_obj_rule_map env with
  | .error e => .error e
  | .ok d =>
    let rule := pyDictGetObj d obj
    if rule = none ∧ is_in_graph_function env obj = true then
      .ok (some TraceRule.TorchInGraphFunctionVariable)
    else
      .ok rule

/-- `lookup`, the classifier entry point: unhashable guard, disallow
override, user-defined allow override, string literal, unwrap guard, then
rule table and fallback. -/
def lookup (env : Env) (obj : PyObj) : Except LoadErr (Option TraceRule) :=
  if obj.hashable = false then .ok none
  else if env.disallowed_function_ids obj.oid = true then .ok none
  else if env.is_user_defined_allowed obj = true then
    .ok (some TraceRule.TorchInGraphFunctionVariable)
  else if obj.kind = PyKind.strType then .ok (some TraceRule.ConstantVariable)
  else rule_lookup_and_fallback env (unwrap_guarded obj)

/-- The last binding for key `n` in a pair list (what a later dict
assignment leaves behind). -/
def lastValue : List (String × TraceRule) → String → Option TraceRule
  | [], _ => none
  | p :: rest, n =>
    match lastValue rest n with
    | some w => some w
    | none => if p.1 = n then some p.2 else none

/-- A declared rule name that `load_object` can process without a fatal
exception: at most one `#`, and a `.` in the part before it. -/
def wellFormedName (k : String) : Bool :=
  let x := pySplit '#' k
  decide (((x.length = 1 ∨ x.length = 2) ∧ 2 ≤ (pySplit '.' (x.headD "")).length))

/-- Whether a `load_object` outcome is survivable for rule-table
construction: success, or one of the two exception types the construction
loop catches. -/
def caughtOrOk : Except LoadErr PyObj → Bool
  | .ok _ => true
  | .error .attributeError => true
  | .error .moduleNotFoundError => true
  | .error _ => false

/-- Whether an `Except` outcome is a success. -/
def isOkB {α : Type} : Except LoadErr α → Bool
  | .ok _ => true
  | .error _ => false

/-- A placeholder object for environments that never consult it. -/
def dummyObj : PyObj := .mk 0 0 true .other none none

/-- A concrete environment: no module resolves, identity 100 is
disallowed, identity 200 is user-allowed, identity 300 is accepted by the
fallback allow-list, and the tensor type has no attributes. -/
def env0 : Env where
  import_module := fun _ => none
  getattr := fun _ _ => none
  disallowed_function_ids := fun i => decide (i = 100)
  is_user_defined_allowed := fun o => decide (o.oid = 200)
  is_allowed := fun o => decide (o.oid = 300)
  tensor_dir := []
  tensor_getattr := fun _ => dummyObj

/-- A hashable object whose identity is in the Disallow set of `env0`. -/
def objDisallowed : PyObj := .mk 100 100 true .other none none

/-- A hashable string object that the Allow predicate of `env0` accepts
and that is not disallowed there. -/
def objStrAllowed : PyObj := .mk 200 200 true .strType none none

/-- A hashable string object that `env0` neither disallows nor allows. -/
def objStrPlain : PyObj := .mk 201 201 true .strType none none

/-- A plain function object accepted by the fallback allow-list of `env0`. -/
def objFnAllowed : PyObj := .mk 300 300 true .functionType none none

/-- An unhashable object. -/
def objUnhashable : PyObj := .mk 7 7 false .other none none

/-- A function object reachable through a `__wrapped__` back-reference. -/
def objWrapInner : PyObj := .mk 8 8 true .functionType none none

/-- A wrapper around `objWrapInner` whose qualified name is outside the
reserved flattened-function namespace. -/
def objWrapped : PyObj := .mk 9 9 true .functionType (some "helper.wrap") (some objWrapInner)

/-- A wrapper around `objWrapInner` whose qualified name starts with
`_VariableFunctionsClass`. -/
def objWrappedVF : PyObj :=
  .mk 10 10 true .functionType (some "_VariableFunctionsClass.add") (some objWrapInner)

/-- The object that `env1` resolves `torch.profiler.profiler.profile` to. -/
def objA : PyObj := .mk 50 5 true .other none none

/-- An object distinct from `objA` (different identity) but equal to it
under Python equality (same equality key). -/
def objB : PyObj := .mk 51 5 true .other none none

/-- The module object `env1` returns for `torch.profiler.profiler`. -/
def modProfiler : PyObj := .mk 60 60 true .other none none

/-- A concrete environment in which exactly one declared rule name,
`torch.profiler.profiler.profile`, resolves (to `objA`); no override fires. -/
def env1 : Env where
  import_module := fun m => if m = "torch.profiler.profiler" then some modProfiler else none
  getattr := fun o a => if o.oid = 60 ∧ a = "profile" then some objA else none
  disallowed_function_ids := fun _ => false
  is_user_defined_allowed := fun _ => false
  is_allowed := fun _ => false
  tensor_dir := []
  tensor_getattr := fun _ => dummyObj

/-- The object that `env2` resolves the qualified name `m.a` to. -/
def objX : PyObj := .mk 70 70 true .other none none

/-- The module object `env2` returns for `m`. -/
def modM : PyObj := .mk 71 71 true .other none none

/-- A concrete environment resolving the qualified name `m.a` to `objX`. -/
def env2 : Env where
  import_module := fun m => if m = "m" then some modM else none
  getattr := fun o a => if o.oid = 71 ∧ a = "a" then some objX else none
  disallowed_function_ids := fun _ => false
  is_user_defined_allowed := fun _ => false
  is_allowed := fun _ => false
  tensor_dir := []
  tensor_getattr := fun _ => dummyObj

/-- A manual entry list declaring `m.a` as an in-graph function. -/
def manualColliding : List (String × TraceRule) :=
  [("m.a", .TorchInGraphFunctionVariable)]

/-- An auto-derived entry list declaring `m.a` as a context manager. -/
def autoColliding : List (String × TraceRule) :=
  [("m.a", .TorchCtxManagerClassVariable)]

theorem pyDictGetStr_map_update (d : List (String × TraceRule)) (k : String) (v : TraceRule)
    (n : String) :
    pyDictGetStr (d.map (fun p => if p.1 = k then (p.1, v) else p)) n =
      if n = k then (pyDictGetStr d n).map (fun _ => v) else pyDictGetStr d n := by
  induction d with
  | nil => simp [pyDictGetStr]
  | cons p rest ih =>
    by_cases hpk : p.1 = k
    · by_cases hnk : n = k
      · simp [pyDictGetStr, hpk, hnk]
      · have hkn : ¬ k = n := fun h => hnk h.symm
        simp [pyDictGetStr, hpk, hnk, hkn, ih]
    · by_cases hpn : p.1 = n
      · have hnk : ¬ n = k := fun h => hpk (hpn.trans h)
        simp [pyDictGetStr, hpk, hpn, hnk]
      · simp [pyDictGetStr, hpk, hpn, ih]

theorem pyDictGetStr_append_single (d : List (String × TraceRule)) (k : String) (v : TraceRule)
    (n : String) :
    pyDictGetStr (d ++ [(k, v)]) n =
      match pyDictGetStr d n with
      | some w => some w
      | none => if k = n then some v else none := by
  induction d with
  | nil => simp [pyDictGetStr]
  | cons p rest ih =>
    by_cases hpn : p.1 = n <;> simp [pyDictGetStr, hpn, ih]

theorem pyDictGetStr_isSome_of_mem (d : List (String × TraceRule)) (k : String)
    (h : ∃ p ∈ d, p.1 = k) : (pyDictGetStr d k).isSome = true := by
  induction d with
  | nil => simp at h
  | cons p rest ih =>
    by_cases hpk : p.1 = k
    · simp [pyDictGetStr, hpk]
    · have : ∃ q ∈ rest, q.1 = k := by
        rcases h with ⟨q, hq, hqk⟩
        rcases List.mem_cons.mp hq with hq | hq
        · exact absurd (hq ▸ hqk) hpk
        · exact ⟨q, hq, hqk⟩
      simp [pyDictGetStr, hpk, ih this]

theorem pyDictGetStr_eq_none_of_not_mem (d : List (String × TraceRule)) (k : String)
    (h : ¬ ∃ p ∈ d, p.1 = k) : pyDictGetStr d k = none := by
  induction d with
  | nil => rfl
  | cons p rest ih =>
    by_cases hpk : p.1 = k
    · exact absurd ⟨p, List.mem_cons_self p rest, hpk⟩ h
    · have : ¬ ∃ q ∈ rest, q.1 = k := fun ⟨q, hq, hqk⟩ =>
        h ⟨q, List.mem_cons_of_mem p hq, hqk⟩
      simp [pyDictGetStr, hpk, ih this]

theorem pyDictGetStr_update (d : List (String × TraceRule)) (k : String) (v : TraceRule)
    (n : String) :
    pyDictGetStr (pyDictUpdate d k v) n = if n = k then some v else pyDictGetStr d n := by
  unfold pyDictUpdate
  split
  · rename_i hex
    rw [pyDictGetStr_map_update]
    by_cases hnk : n = k
    · subst hnk
      obtain ⟨w, hw⟩ := Option.isSome_iff_exists.mp (pyDictGetStr_isSome_of_mem d n hex)
      simp [hw]
    · simp [hnk]
  · rename_i hex
    rw [pyDictGetStr_append_single]
    by_cases hnk : n = k
    · subst hnk
      simp [pyDictGetStr_eq_none_of_not_mem d n hex]
    · have hkn : ¬ k = n := fun h => hnk h.symm
      cases h : pyDictGetStr d n <;> simp [h, hnk, hkn]

theorem pyDictGetStr_foldl_update (l : List (String × TraceRule))
    (d : List (String × TraceRule)) (n : String) :
    pyDictGetStr (l.foldl (fun acc p => pyDictUpdate acc p.1 p.2) d) n =
      match lastValue l n with
      | some w => some w
      | none => pyDictGetStr d n := by
  induction l generalizing d with
  | nil => rfl
  | cons p t ih =>
    simp only [List.foldl_cons]
    rw [ih]
    cases h : lastValue t n with
    | some w => simp [lastValue, h]
    | none =>
      simp only [lastValue, h]
      rw [pyDictGetStr_update]
      by_cases hn : p.1 = n
      · simp [hn]
      · have hn2 : ¬ n = p.1 := fun h' => hn h'.symm
        simp [hn, hn2]

theorem mem_of_pyDictGetStr (d : List (String × TraceRule)) (k : String) (v : TraceRule)
    (h : pyDictGetStr d k = some v) : (k, v) ∈ d := by
  induction d with
  | nil => simp [pyDictGetStr] at h
  | cons p rest ih =>
    by_cases hpk : p.1 = k
    · simp only [pyDictGetStr, if_pos hpk] at h
      have : p = (k, v) := Prod.ext hpk (Option.some.inj h)
      exact this ▸ List.mem_cons_self p rest
    · simp only [pyDictGetStr, if_neg hpk] at h
      exact List.mem_cons_of_mem p (ih h)

theorem pyDictGetObj_map_update (d : List (PyObj × TraceRule)) (e : Nat) (v : TraceRule)
    (o : PyObj) :
    pyDictGetObj (d.map (fun p => if p.1.eqKey = e then (p.1, v) else p)) o =
      if o.eqKey = e then (pyDictGetObj d o).map (fun _ => v) else pyDictGetObj d o := by
  induction d with
  | nil => simp [pyDictGetObj]
  | cons p rest ih =>
    by_cases hpk : p.1.eqKey = e
    · by_cases hnk : o.eqKey = e
      · simp [pyDictGetObj, hpk, hnk]
      · have hkn : ¬ p.1.eqKey = o.eqKey := fun h => hnk (h.symm.trans hpk)
        have hen : ¬ e = o.eqKey := fun h => hnk h.symm
        simp [pyDictGetObj, hpk, hnk, hkn, hen, ih]
    · by_cases hpn : p.1.eqKey = o.eqKey
      · have hnk : ¬ o.eqKey = e := fun h => hpk (hpn.trans h)
        simp [pyDictGetObj, hpk, hpn, hnk]
      · simp [pyDictGetObj, hpk, hpn, ih]

theorem pyDictGetObj_append_single (d : List (PyObj × TraceRule)) (q : PyObj) (v : TraceRule)
    (o : PyObj) :
    pyDictGetObj (d ++ [(q, v)]) o =
      match pyDictGetObj d o with
      | some w => some w
      | none => if q.eqKey = o.eqKey then some v else none := by
  induction d with
  | nil => simp [pyDictGetObj]
  | cons p rest ih =>
    by_cases hpn : p.1.eqKey = o.eqKey <;> simp [pyDictGetObj, hpn, ih]

theorem pyDictGetObj_isSome_of_mem (d : List (PyObj × TraceRule)) (o : PyObj)
    (h : ∃ p ∈ d, p.1.eqKey = o.eqKey) : (pyDictGetObj d o).isSome = true := by
  induction d with
  | nil => simp at h
  | cons p rest ih =>
    by_cases hpk : p.1.eqKey = o.eqKey
    · simp [pyDictGetObj, hpk]
    · have : ∃ q ∈ rest, q.1.eqKey = o.eqKey := by
        rcases h with ⟨q, hq, hqk⟩
        rcases List.mem_cons.mp hq with hq | hq
        · exact absurd (hq ▸ hqk) hpk
        · exact ⟨q, hq, hqk⟩
      simp [pyDictGetObj, hpk, ih this]

theorem pyDictGetObj_eq_none_of_not_mem (d : List (PyObj × TraceRule)) (o : PyObj)
    (h : ¬ ∃ p ∈ d, p.1.eqKey = o.eqKey) : pyDictGetObj d o = none := by
  induction d with
  | nil => rfl
  | cons p rest ih =>
    by_cases hpk : p.1.eqKey = o.eqKey
    · exact absurd ⟨p, List.mem_cons_self p rest, hpk⟩ h
    · have : ¬ ∃ q ∈ rest, q.1.eqKey = o.eqKey := fun ⟨q, hq, hqk⟩ =>
        h ⟨q, List.mem_cons_of_mem p hq, hqk⟩
      simp [pyDictGetObj, hpk, ih this]

theorem pyDictGetObj_insert (d : List (PyObj × TraceRule)) (q : PyObj) (v : TraceRule)
    (o : PyObj) :
    pyDictGetObj (pyDictInsertObj d q v) o =
      if o.eqKey = q.eqKey then some v else pyDictGetObj d o := by
  unfold pyDictInsertObj
  split
  · rename_i hex
    rw [pyDictGetObj_map_update]
    by_cases hnk : o.eqKey = q.eqKey
    · have hex2 : ∃ p ∈ d, p.1.eqKey = o.eqKey := by
        rcases hex with ⟨p, hp, hpk⟩
        exact ⟨p, hp, hpk.trans hnk.symm⟩
      obtain ⟨w, hw⟩ := Option.isSome_iff_exists.mp (pyDictGetObj_isSome_of_mem d o hex2)
      simp [hw, hnk]
    · simp [hnk]
  · rename_i hex
    rw [pyDictGetObj_append_single]
    by_cases hnk : o.eqKey = q.eqKey
    · have hnone : pyDictGetObj d o = none := by
        refine pyDictGetObj_eq_none_of_not_mem d o (fun ⟨p, hp, hpk⟩ => hex ?_)
        exact ⟨p, hp, hpk.trans hnk⟩
      simp [hnone, hnk]
    · have hkn : ¬ q.eqKey = o.eqKey := fun h => hnk h.symm
      cases h : pyDictGetObj d o <;> simp [h, hnk, hkn]

theorem caughtOrOk_unwrap_loaded (r : Except LoadErr PyObj) :
    caughtOrOk (unwrap_loaded r) = caughtOrOk r := by
  cases r with
  | error e => rfl
  | ok val =>
    cases hw : val.wrapped <;> simp [unwrap_loaded, hw, caughtOrOk]

theorem rsplitDot1_isSome (s : String) (h : 2 ≤ (pySplit '.' s).length) :
    ∃ a b, rsplitDot1 s = some (a, b) := by
  unfold rsplitDot1
  cases hrev : (pySplit '.' s).reverse with
  | nil =>
    have := congrArg List.length hrev
    simp only [List.length_reverse, List.length_nil] at this
    omega
  | cons last l =>
    cases l with
    | nil =>
      have := congrArg List.length hrev
      simp only [List.length_reverse, List.length_cons, List.length_nil] at this
      omega
    | cons b l2 => exact ⟨_, _, rfl⟩

theorem load_obj_from_str_caught (env : Env) (s : String)
    (h : 2 ≤ (pySplit '.' s).length) : caughtOrOk ( _load_obj_from_str env s) = true := by
  obtain ⟨a, b, hab⟩ := rsplitDot1_isSome s h
  cases himp : env.import_module a with
  | none => simp [ _load_obj_from_str, hab, himp, caughtOrOk]
  | some m =>
    cases hget : env.getattr m b with
    | none => simp [ _load_obj_from_str, hab, himp, hget, caughtOrOk]
    | some v => simp [ _load_obj_from_str, hab, himp, hget, caughtOrOk]

theorem load_object_caught (env : Env) (k : String) (h : wellFormedName k = true) :
    caughtOrOk (load_object env k) = true := by
  unfold wellFormedName at h
  rw [decide_eq_true_eq] at h
  obtain ⟨hlen, hdot⟩ := h
  simp only [load_object]
  rw [caughtOrOk_unwrap_loaded]
  rcases hlen with h1 | h2
  · have hne2 : ¬ (pySplit '#' k).length = 2 := by omega
    rw [if_neg hne2, if_pos h1]
    exact load_obj_from_str_caught env _ hdot
  · rw [if_pos h2]
    have hc := load_obj_from_str_caught env ((pySplit '#' k).headD "") hdot
    cases hl : _load_obj_from_str env ((pySplit '#' k).headD "") with
    | ok obj =>
      cases hget : env.getattr obj ((pySplit '#' k).getD 1 "") <;>
        simp only [List.getD_eq_getElem?_getD] at hget <;> simp [hget, caughtOrOk]
    | error e =>
      rw [hl] at hc
      cases e <;> simp [caughtOrOk] at hc ⊢

theorem construct_ok_of_caught (env : Env) :
    ∀ (m : List (String × TraceRule)) (d0 : List (PyObj × TraceRule)),
      (∀ p ∈ m, caughtOrOk (load_object env p.1) = true) →
      ∃ d, get_torch_obj_rule_map_from env m d0 = .ok d := by
  intro m
  induction m with
  | nil => exact fun d0 _ => ⟨d0, rfl⟩
  | cons p t ih =>
    obtain ⟨pk, pv⟩ := p
    intro d0 hall
    have hh := hall (pk, pv) (List.mem_cons_self _ _)
    have ht : ∀ q ∈ t, caughtOrOk (load_object env q.1) = true :=
      fun q hq => hall q (List.mem_cons_of_mem _ hq)
    cases hl : load_object env pk with
    | ok obj =>
      simp only [get_torch_obj_rule_map_from, hl]
      exact ih _ ht
    | error e =>
      rw [hl] at hh
      cases e with
      | attributeError =>
        simp only [get_torch_obj_rule_map_from, hl]
        exact ih _ ht
      | moduleNotFoundError =>
        simp only [get_torch_obj_rule_map_from, hl]
        exact ih _ ht
      | assertionError msg => simp [caughtOrOk] at hh
      | valueError => simp [caughtOrOk] at hh

theorem torch_name_rule_map_wellformed :
    ∀ p ∈ torch_name_rule_map, wellFormedName p.1 = true := by decide

theorem get_torch_obj_rule_map_ok (env : Env) :
    ∃ d, get_torch_obj_rule_map env = .ok d :=
  construct_ok_of_caught env torch_name_rule_map []
    (fun p hp => load_object_caught env p.1 (torch_name_rule_map_wellformed p hp))

theorem construct_not_ok_of_fatal (env : Env) (k : String) (v : TraceRule) (e : LoadErr)
    (he : load_object env k = .error e) (ha : e ≠ .attributeError)
    (hm : e ≠ .moduleNotFoundError) :
    ∀ (m : List (String × TraceRule)) (d0 : List (PyObj × TraceRule)), (k, v) ∈ m →
      isOkB (get_torch_obj_rule_map_from env m d0) = false := by
  intro m
  induction m with
  | nil =>
    intro d0 hmem
    simp at hmem
  | cons p t ih =>
    obtain ⟨pk, pv⟩ := p
    intro d0 hmem
    by_cases hk : pk = k
    · subst hk
      cases e with
      | attributeError => exact absurd rfl ha
      | moduleNotFoundError => exact absurd rfl hm
      | assertionError msg => simp [get_torch_obj_rule_map_from, he, isOkB]
      | valueError => simp [get_torch_obj_rule_map_from, he, isOkB]
    · have htail : (k, v) ∈ t := by
        rcases List.mem_cons.mp hmem with hhead | htail
        · exact absurd (congrArg Prod.fst hhead).symm hk
        · exact htail
      cases hl : load_object env pk with
      | ok obj =>
        simp only [get_torch_obj_rule_map_from, hl]
        exact ih _ htail
      | error e2 =>
        cases e2 with
        | attributeError =>
          simp only [get_torch_obj_rule_map_from, hl]
          exact ih _ htail
        | moduleNotFoundError =>
          simp only [get_torch_obj_rule_map_from, hl]
          exact ih _ htail
        | assertionError msg => simp [get_torch_obj_rule_map_from, hl, isOkB]
        | valueError => simp [get_torch_obj_rule_map_from, hl, isOkB]

theorem construct_skip (env : Env) (k : String) (v : TraceRule)
    (h : load_object env k = .error .attributeError ∨
      load_object env k = .error .moduleNotFoundError) :
    ∀ (m1 m2 : List (String × TraceRule)) (d0 : List (PyObj × TraceRule)),
      get_torch_obj_rule_map_from env (m1 ++ (k, v) :: m2) d0 =
        get_torch_obj_rule_map_from env (m1 ++ m2) d0 := by
  intro m1
  induction m1 with
  | nil =>
    intro m2 d0
    rcases h with h | h <;> simp [get_torch_obj_rule_map_from, h]
  | cons p t ih =>
    obtain ⟨pk, pv⟩ := p
    intro m2 d0
    cases hl : load_object env pk with
    | ok obj =>
      simp only [List.cons_append, get_torch_obj_rule_map_from, hl]
      exact ih m2 _
    | error e2 =>
      cases e2 with
      | attributeError =>
        simp only [List.cons_append, get_torch_obj_rule_map_from, hl]
        exact ih m2 _
      | moduleNotFoundError =>
        simp only [List.cons_append, get_torch_obj_rule_map_from, hl]
        exact ih m2 _
      | assertionError msg => simp [get_torch_obj_rule_map_from, hl]
      | valueError => simp [get_torch_obj_rule_map_from, hl]

theorem construct_get_of_unique (env : Env) (obj : PyObj) (ca : TraceRule) :
    ∀ (m : List (String × TraceRule)) (d0 d : List (PyObj × TraceRule)),
      (∀ p ∈ m, ∀ o, load_object env p.1 = .ok o → o.eqKey = obj.eqKey → p.2 = ca) →
      ((∃ nn, (nn, ca) ∈ m ∧ load_object env nn = .ok obj) ∨ pyDictGetObj d0 obj = some ca) →
      get_torch_obj_rule_map_from env m d0 = .ok d →
      pyDictGetObj d obj = some ca := by
  intro m
  induction m with
  | nil =>
    intro d0 d hH hE hbuild
    rcases hE with ⟨nn, hmem, _⟩ | hget
    · simp at hmem
    · exact (Except.ok.inj hbuild) ▸ hget
  | cons p t ih =>
    obtain ⟨pk, pv⟩ := p
    intro d0 d hH hE hbuild
    have hHt : ∀ q ∈ t, ∀ o, load_object env q.1 = .ok o → o.eqKey = obj.eqKey → q.2 = ca :=
      fun q hq => hH q (List.mem_cons_of_mem _ hq)
    cases hl : load_object env pk with
    | ok o =>
      simp only [get_torch_obj_rule_map_from, hl] at hbuild
      rcases hE with ⟨nn, hmem, hloadn⟩ | hget
      · rcases List.mem_cons.mp hmem with hhead | htail
        · have hnn : nn = pk := congrArg Prod.fst hhead
          have hca : ca = pv := congrArg Prod.snd hhead
          have ho : o = obj := by
            rw [hnn, hl] at hloadn
            exact Except.ok.inj hloadn
          refine ih _ _ hHt (Or.inr ?_) hbuild
          rw [pyDictGetObj_insert, ho, ← hca]
          simp
        · exact ih _ _ hHt (Or.inl ⟨nn, htail, hloadn⟩) hbuild
      · refine ih _ _ hHt (Or.inr ?_) hbuild
        rw [pyDictGetObj_insert]
        by_cases heq : obj.eqKey = o.eqKey
        · have hpv : pv = ca := hH (pk, pv) (List.mem_cons_self _ _) o hl heq.symm
          simp [heq, hpv]
        · simp [heq, hget]
    | error e =>
      cases e with
      | attributeError =>
        simp only [get_torch_obj_rule_map_from, hl] at hbuild
        rcases hE with ⟨nn, hmem, hloadn⟩ | hget
        · rcases List.mem_cons.mp hmem with hhead | htail
          · have hnn : nn = pk := congrArg Prod.fst hhead
            rw [hnn, hl] at hloadn
            exact absurd hloadn (by simp)
          · exact ih _ _ hHt (Or.inl ⟨nn, htail, hloadn⟩) hbuild
        · exact ih _ _ hHt (Or.inr hget) hbuild
      | moduleNotFoundError =>
        simp only [get_torch_obj_rule_map_from, hl] at hbuild
        rcases hE with ⟨nn, hmem, hloadn⟩ | hget
        · rcases List.mem_cons.mp hmem with hhead | htail
          · have hnn : nn = pk := congrArg Prod.fst hhead
            rw [hnn, hl] at hloadn
            exact absurd hloadn (by simp)
          · exact ih _ _ hHt (Or.inl ⟨nn, htail, hloadn⟩) hbuild
        · exact ih _ _ hHt (Or.inr hget) hbuild
      | assertionError msg => simp [get_torch_obj_rule_map_from, hl] at hbuild
      | valueError => simp [get_torch_obj_rule_map_from, hl] at hbuild

theorem is_in_graph_function_iff (env : Env) (o : PyObj) :
    is_in_graph_function env o = true ↔
      (in_tensor_method env o = true ∨ o.kind = PyKind.opOverloadPacket ∨
        o.kind = PyKind.opOverload ∨
        ((o.kind = PyKind.functionType ∨ o.kind = PyKind.methodType ∨
          o.kind = PyKind.builtinFunctionType ∨ o.kind = PyKind.methodDescriptorType ∨
          o.kind = PyKind.wrapperDescriptorType) ∧ env.is_allowed o = true)) := by
  unfold is_in_graph_function
  split
  · rename_i hcond
    simp only [true_iff]
    tauto
  · rename_i hcond1
    split
    · rename_i hcond2
      constructor
      · intro hallow
        tauto
      · intro hrhs
        tauto
    · rename_i hcond2
      simp only [Bool.false_eq_true, false_iff]
      tauto

theorem rule_lookup_and_fallback_ok (env : Env) (o : PyObj)
    (h : ∃ d, get_torch_obj_rule_map env = .ok d) :
    ∃ r, rule_lookup_and_fallback env o = .ok r := by
  obtain ⟨d, hd⟩ := h
  unfold rule_lookup_and_fallback
  rw [hd]
  dsimp only
  split
  · exact ⟨_, rfl⟩
  · exact ⟨_, rfl⟩

/-- Claim C1: for every hashable object whose identity is in the external
Disallow set, `lookup` returns `None` (`NoRule`), regardless of the Allow
predicate, the rule table contents, or the fallback heuristic (the whole
environment is universally quantified). -/
theorem c1_disallow_returns_none (env : Env) (obj : PyObj)
    (h1 : obj.hashable = true) (h2 : env.disallowed_function_ids obj.oid = true) :
    lookup env obj = .ok none := by
  simp [lookup, h1, h2]

theorem c1_witness : lookup env0 objDisallowed = .ok none :=
  c1_disallow_returns_none env0 objDisallowed rfl rfl

/-- Claim C2: for every hashable object that passes the
disallow/allow/string steps, after the unwrap step, if the rule table has
no entry for it, `lookup` returns `TorchInGraphFunctionVariable` exactly
when the object is a tensor method, an operator-overload or overload-set
object, or a plain/bound/builtin/native function- or method-like callable
accepted by `is_allowed`; for every other shape it returns `None`. -/
theorem c2_fallback_heuristic (env : Env) (obj : PyObj) (d : List (PyObj × TraceRule))
    (h1 : obj.hashable = true)
    (h2 : env.disallowed_function_ids obj.oid = false)
    (h3 : env.is_user_defined_allowed obj = false)
    (h4 : ¬ obj.kind = PyKind.strType)
    (h5 : get_torch_obj_rule_map env = .ok d)
    (h6 : pyDictGetObj d (unwrap_guarded obj) = none) :
    lookup env obj = .ok (
      if in_tensor_method env (unwrap_guarded obj) = true ∨
          (unwrap_guarded obj).kind = PyKind.opOverloadPacket ∨
          (unwrap_guarded obj).kind = PyKind.opOverload ∨
          (((unwrap_guarded obj).kind = PyKind.functionType ∨
            (unwrap_guarded obj).kind = PyKind.methodType ∨
            (unwrap_guarded obj).kind = PyKind.builtinFunctionType ∨
            (unwrap_guarded obj).kind = PyKind.methodDescriptorType ∨
            (unwrap_guarded obj).kind = PyKind.wrapperDescriptorType) ∧
            env.is_allowed (unwrap_guarded obj) = true)
      then some TraceRule.TorchInGraphFunctionVariable
      else none) := by
  have hstep : lookup env obj = rule_lookup_and_fallback env (unwrap_guarded obj) := by
    simp [lookup, h1, h2, h3, h4]
  rw [hstep]
  unfold rule_lookup_and_fallback
  rw [h5]
  dsimp only
  rw [h6]
  by_cases hig : is_in_graph_function env (unwrap_guarded obj) = true
  · rw [if_pos ⟨rfl, hig⟩,
      if_pos ((is_in_graph_function_iff env (unwrap_guarded obj)).mp hig)]
  · rw [if_neg (fun hh => hig hh.2),
      if_neg (fun hh => hig ((is_in_graph_function_iff env (unwrap_guarded obj)).mpr hh))]

theorem c2_witness :
    lookup env0 objFnAllowed = .ok (
      if in_tensor_method env0 (unwrap_guarded objFnAllowed) = true ∨
          (unwrap_guarded objFnAllowed).kind = PyKind.opOverloadPacket ∨
          (unwrap_guarded objFnAllowed).kind = PyKind.opOverload ∨
          (((unwrap_guarded objFnAllowed).kind = PyKind.functionType ∨
            (unwrap_guarded objFnAllowed).kind = PyKind.methodType ∨
            (unwrap_guarded objFnAllowed).kind = PyKind.builtinFunctionType ∨
            (unwrap_guarded objFnAllowed).kind = PyKind.methodDescriptorType ∨
            (unwrap_guarded objFnAllowed).kind = PyKind.wrapperDescriptorType) ∧
            env0.is_allowed (unwrap_guarded objFnAllowed) = true)
      then some TraceRule.TorchInGraphFunctionVariable
      else none) :=
  c2_fallback_heuristic env0 objFnAllowed [] rfl rfl rfl (by decide) rfl rfl

/-- Claim C3: a qualified name declared in both the manual and the
auto-derived entry lists with different classifications is mapped by the
merged name map, and (for the object it resolves to, absent aliasing with
other entries) by the constructed identity-keyed rule table, to the
auto-derived classification, never the manual one. -/
theorem c3_auto_derived_wins (env : Env) (manual auto : List (String × TraceRule))
    (n : String) (cm ca : TraceRule) (obj : PyObj) (d : List (PyObj × TraceRule))
    (_hm : pyDictGetStr (pyDictOfPairs manual) n = some cm)
    (ha : pyDictGetStr (pyDictOfPairs auto) n = some ca)
    (_hne : cm ≠ ca)
    (hload : load_object env n = .ok obj)
    (huniq : ∀ p ∈ merged_name_rule_map manual auto, ∀ o,
      load_object env p.1 = .ok o → o.eqKey = obj.eqKey → p.2 = ca)
    (hbuild : get_torch_obj_rule_map_from env (merged_name_rule_map manual auto) [] = .ok d) :
    pyDictGetStr (merged_name_rule_map manual auto) n = some ca ∧
      pyDictGetObj d obj = some ca := by
  have hlast : lastValue auto n = some ca := by
    unfold pyDictOfPairs at ha
    rw [pyDictGetStr_foldl_update] at ha
    cases h : lastValue auto n with
    | some w =>
      rw [h] at ha
      exact ha
    | none =>
      rw [h] at ha
      exact absurd ha (by simp [pyDictGetStr])
  have hname : pyDictGetStr (merged_name_rule_map manual auto) n = some ca := by
    unfold merged_name_rule_map pyDictOfPairs
    rw [List.foldl_append, pyDictGetStr_foldl_update, hlast]
  refine ⟨hname, ?_⟩
  exact construct_get_of_unique env obj ca (merged_name_rule_map manual auto) [] d huniq
    (Or.inl ⟨n, mem_of_pyDictGetStr _ n ca hname, hload⟩) hbuild

theorem c3_witness :
    pyDictGetStr (merged_name_rule_map manualColliding autoColliding) "m.a" =
        some TraceRule.TorchCtxManagerClassVariable ∧
      pyDictGetObj [(objX, TraceRule.TorchCtxManagerClassVariable)] objX =
        some TraceRule.TorchCtxManagerClassVariable :=
  c3_auto_derived_wins env2 manualColliding autoColliding "m.a"
    TraceRule.TorchInGraphFunctionVariable TraceRule.TorchCtxManagerClassVariable objX
    [(objX, TraceRule.TorchCtxManagerClassVariable)]
    rfl rfl (by decide) rfl
    (by
      intro p hp o hload heq
      have hp2 : p ∈ [("m.a", TraceRule.TorchCtxManagerClassVariable)] := hp
      rw [List.mem_singleton] at hp2
      rw [hp2])
    rfl

/-- Claim C4 counterexample: `objStrAllowed` is a hashable string whose
identity is not in the Disallow set of `env0`, yet `lookup` does not
return `ConstantVariable` for it, because the user-defined Allow override
(step 3) fires first and returns `TorchInGraphFunctionVariable`. -/
theorem c4_counterexample :
    objStrAllowed.kind = PyKind.strType ∧
    objStrAllowed.hashable = true ∧
    env0.disallowed_function_ids objStrAllowed.oid = false ∧
    lookup env0 objStrAllowed ≠ .ok (some TraceRule.ConstantVariable) := by
  refine ⟨rfl, rfl, rfl, fun h => ?_⟩
  rw [show lookup env0 objStrAllowed =
    .ok (some TraceRule.TorchInGraphFunctionVariable) from rfl] at h
  simp at h

/-- Claim C4 (amended): for every hashable string value that is neither
disallowed by identity nor accepted by the user-defined Allow predicate,
`lookup` returns `ConstantVariable`. -/
theorem c4_amended_string_constant (env : Env) (s : PyObj)
    (h0 : s.hashable = true) (h1 : s.kind = PyKind.strType)
    (h2 : env.disallowed_function_ids s.oid = false)
    (h3 : env.is_user_defined_allowed s = false) :
    lookup env s = .ok (some TraceRule.ConstantVariable) := by
  simp [lookup, h0, h1, h2, h3]

theorem c4_witness : lookup env0 objStrPlain = .ok (some TraceRule.ConstantVariable) :=
  c4_amended_string_constant env0 objStrPlain rfl rfl rfl rfl

/-- Claim C5: for a wrapped object reaching the unwrap step, the rule-table
lookup and fallback are performed on the object itself when its qualified
name starts with `_VariableFunctionsClass`, and on the wrapped original
otherwise. -/
theorem c5_unwrap_guard (env : Env) (obj w : PyObj)
    (h1 : obj.hashable = true)
    (h2 : env.disallowed_function_ids obj.oid = false)
    (h3 : env.is_user_defined_allowed obj = false)
    (h4 : ¬ obj.kind = PyKind.strType)
    (h5 : obj.wrapped = some w) :
    (qualname_in_variable_functions obj = true →
      lookup env obj = rule_lookup_and_fallback env obj) ∧
    (qualname_in_variable_functions obj = false →
      lookup env obj = rule_lookup_and_fallback env w) := by
  constructor <;> intro hg <;> simp [lookup, unwrap_guarded, h1, h2, h3, h4, h5, hg]

theorem c5_witness :
    (qualname_in_variable_functions objWrappedVF = true ∧
      lookup env0 objWrappedVF = rule_lookup_and_fallback env0 objWrappedVF) ∧
    (qualname_in_variable_functions objWrapped = false ∧
      lookup env0 objWrapped = rule_lookup_and_fallback env0 objWrapInner) :=
  ⟨⟨rfl, (c5_unwrap_guard env0 objWrappedVF objWrapInner rfl rfl rfl (by decide) rfl).1 rfl⟩,
    ⟨rfl, (c5_unwrap_guard env0 objWrapped objWrapInner rfl rfl rfl (by decide) rfl).2 rfl⟩⟩

/-- Claim C6: a declared rule entry whose qualified name contains two or
more `#` separators makes `load_object` fail with the descriptive
assertion failure, and rule-table construction aborts (it cannot return
`.ok`): the failure is not swallowed by the handler that only catches
`AttributeError` and `ModuleNotFoundError`. -/
theorem c6_malformed_name_fatal (env : Env) (m : List (String × TraceRule)) (k : String)
    (v : TraceRule) (hmem : (k, v) ∈ m) (hlen : 3 ≤ (pySplit '#' k).length) :
    load_object env k = .error (.assertionError ("Invalid obj name " ++ k)) ∧
      isOkB (get_torch_obj_rule_map_from env m []) = false := by
  have hload : load_object env k = .error (.assertionError ("Invalid obj name " ++ k)) := by
    simp only [load_object]
    rw [if_neg (by omega), if_neg (by omega)]
    rfl
  exact ⟨hload, construct_not_ok_of_fatal env k v _ hload (by simp) (by simp) m [] hmem⟩

theorem c6_witness :
    load_object env0 "a#b#c" = .error (.assertionError ("Invalid obj name " ++ "a#b#c")) ∧
      isOkB (get_torch_obj_rule_map_from env0 [("a#b#c", TraceRule.ConstantVariable)] []) =
        false :=
  c6_malformed_name_fatal env0 [("a#b#c", TraceRule.ConstantVariable)] "a#b#c"
    TraceRule.ConstantVariable (List.mem_singleton.mpr rfl) (by decide)

/-- Claim C7: a declared rule entry whose qualified name fails to resolve
with `AttributeError` or `ModuleNotFoundError` does not make construction
raise, does not appear in the table, and leaves every other entry's
resolution unchanged: building with the entry equals building without it. -/
theorem c7_unresolvable_entry_dropped (env : Env) (k : String) (v : TraceRule)
    (m1 m2 : List (String × TraceRule))
    (h : load_object env k = .error .attributeError ∨
      load_object env k = .error .moduleNotFoundError) :
    get_torch_obj_rule_map_from env (m1 ++ (k, v) :: m2) [] =
      get_torch_obj_rule_map_from env (m1 ++ m2) [] :=
  construct_skip env k v h m1 m2 []

theorem c7_witness :
    get_torch_obj_rule_map_from env0 [("a.b", TraceRule.ConstantVariable)] [] =
      get_torch_obj_rule_map_from env0 [] [] :=
  c7_unresolvable_entry_dropped env0 "a.b" TraceRule.ConstantVariable [] [] (Or.inr rfl)

/-- Claim C8 counterexample: in `env1` the rule table attaches
`TorchCtxManagerClassVariable` to `objA` (resolved from a declared name);
`objB` has a different identity but the same equality key, and `lookup`
applies `objA`'s rule to `objB` — membership is decided by Python
equality, not identity, so a rule attached to one object does apply to a
distinct but equal object. -/
theorem c8_counterexample :
    objA.oid ≠ objB.oid ∧ objA.eqKey = objB.eqKey ∧
      get_torch_obj_rule_map env1 = .ok [(objA, TraceRule.TorchCtxManagerClassVariable)] ∧
      lookup env1 objB = .ok (some TraceRule.TorchCtxManagerClassVariable) :=
  ⟨by decide, rfl, rfl, rfl⟩

/-- Claim C8 (amended): the Disallow override is keyed by identity, but
RuleTable and NativeMethodSet membership are keyed by the object's
equality relation: two objects with the same equality key receive the same
rule-table result and the same native-method-set membership, identical or
not. -/
theorem c8_amended_equality_based (env : Env) (d : List (PyObj × TraceRule)) (o1 o2 : PyObj)
    (h : o1.eqKey = o2.eqKey) :
    pyDictGetObj d o1 = pyDictGetObj d o2 ∧
      in_tensor_method env o1 = in_tensor_method env o2 := by
  constructor
  · induction d with
    | nil => rfl
    | cons p rest ih => simp only [pyDictGetObj, h, ih]
  · unfold in_tensor_method
    simp [h]

theorem c8_witness :
    pyDictGetObj [(objA, TraceRule.TorchCtxManagerClassVariable)] objB =
      pyDictGetObj [(objA, TraceRule.TorchCtxManagerClassVariable)] objA ∧
    in_tensor_method env1 objB = in_tensor_method env1 objA :=
  c8_amended_equality_based env1 [(objA, TraceRule.TorchCtxManagerClassVariable)] objB objA rfl

/-- Claim C9: `lookup` is total: for every environment and every object it
returns a value (the declared rule names of `torch_name_rule_map` are all
well formed, so rule-table construction never raises), and an unhashable
object yields `None` immediately. -/
theorem c9_lookup_total (env : Env) (obj : PyObj) :
    (∃ r, lookup env obj = .ok r) ∧
      (obj.hashable = false → lookup env obj = .ok none) := by
  have hmap := get_torch_obj_rule_map_ok env
  constructor
  · by_cases hh : obj.hashable = false
    · exact ⟨none, by simp [lookup, hh]⟩
    · by_cases h2 : env.disallowed_function_ids obj.oid = true
      · exact ⟨none, by simp [lookup, hh, h2]⟩
      · by_cases h3 : env.is_user_defined_allowed obj = true
        · exact ⟨some .TorchInGraphFunctionVariable, by simp [lookup, hh, h2, h3]⟩
        · by_cases h4 : obj.kind = PyKind.strType
          · exact ⟨some .ConstantVariable, by simp [lookup, hh, h2, h3, h4]⟩
          · have hstep : lookup env obj = rule_lookup_and_fallback env (unwrap_guarded obj) := by
              simp [lookup, hh, h2, h3, h4]
            rw [hstep]
            exact rule_lookup_and_fallback_ok env (unwrap_guarded obj) hmap
  · intro hh
    simp [lookup, hh]

theorem c9_witness :
    (∃ r, lookup env0 objUnhashable = .ok r) ∧
      (objUnhashable.hashable = false → lookup env0 objUnhashable = .ok none) :=
  c9_lookup_total env0 objUnhashable

/-- Claim C10: a declared rule entry whose path part (before any `#`)
contains no `.` makes `load_object` fail with the unpacking `ValueError`
(not one of the two caught error kinds), and rule-table construction
aborts rather than dropping the entry. -/
theorem c10_dotless_path_value_error (env : Env) (m : List (String × TraceRule)) (k : String)
    (v : TraceRule) (hmem : (k, v) ∈ m)
    (hlen : (pySplit '#' k).length = 1 ∨ (pySplit '#' k).length = 2)
    (hdot : (pySplit '.' ((pySplit '#' k).headD "")).length = 1) :
    load_object env k = .error .valueError ∧
      isOkB (get_torch_obj_rule_map_from env m []) = false := by
  have hr : rsplitDot1 ((pySplit '#' k).headD "") = none := by
    unfold rsplitDot1
    cases hrev : (pySplit '.' ((pySplit '#' k).headD "")).reverse with
    | nil => rfl
    | cons a l =>
      cases l with
      | nil => rfl
      | cons b l2 =>
        exfalso
        have := congrArg List.length hrev
        simp only [List.length_reverse, List.length_cons] at this
        omega
  have hload : load_object env k = .error .valueError := by
    have hr2 : rsplitDot1 ((pySplit '#' k).head?.getD "") = none := by
      rw [← List.headD_eq_head?]
      exact hr
    simp only [load_object]
    rcases hlen with h1 | h2
    · rw [if_neg (by omega), if_pos h1]
      simp [ _load_obj_from_str, hr2, unwrap_loaded]
    · rw [if_pos h2]
      simp [ _load_obj_from_str, hr2, unwrap_loaded]
  exact ⟨hload, construct_not_ok_of_fatal env k v .valueError hload (by simp) (by simp) m [] hmem⟩

theorem c10_witness :
    load_object env0 "torch" = .error .valueError ∧
      isOkB (get_torch_obj_rule_map_from env0 [("torch", TraceRule.ConstantVariable)] []) =
        false :=
  c10_dotless_path_value_error env0 [("torch", TraceRule.ConstantVariable)] "torch"
    TraceRule.ConstantVariable (List.mem_singleton.mpr rfl) (Or.inl (by decide)) (by decide)

end TraceRules
